import Mathlib

/-!
Shallow embedding of `src/backend/port/nto_shmem.c` (QNX Neutrino shared
memory port of PostgreSQL).  Strings are modelled as `List Char`, the OS
shared-memory-object namespace as a list of names, errno values and
PostgreSQL error codes as small inductive types, and the fallible OS calls
(`shm_open`, `fstat`, `ftruncate`, `mmap`, `munmap`, `shm_unlink`) through
an oracle record saying which call fails with which errno.  Each modelled
function also returns the list of OS operations it performed, in order, so
that "no OS resource was created" and "detach runs before unlink" are
statable.
-/

/-- Errno values distinguished by the code (`EFBIG`/`ENOMEM` in
`errcode_for_dynamic_shared_memory`); all other errno values are collapsed
into representative constructors. -/
inductive SysErr
  | EFBIG
  | ENOMEM
  | EACCES
  | ENOENT
  | EOTHER
deriving DecidableEq, Repr

/-- PostgreSQL error classifications reachable from this file:
`ERRCODE_OUT_OF_MEMORY`, the family produced by `errcode_for_file_access`
(collapsed to one value), and `ERRCODE_FEATURE_NOT_SUPPORTED`. -/
inductive ErrCode
  | outOfMemory
  | fileAccess
  | featureNotSupported
deriving DecidableEq, Repr

/-- Severity levels used by this file's `ereport`/`elog` calls. -/
inductive PGLevel
  | ERROR
  | FATAL
deriving DecidableEq, Repr

/-- Modelled from the spec: `errcode_for_file_access` lives in the
error-reporting subsystem outside this excerpt; the spec calls its result
"a generic file-access error", so it is modelled as the single
`fileAccess` classification, ignoring the errno. -/
def errcode_for_file_access (_e : SysErr) : ErrCode :=
  ErrCode.fileAccess

/-- `errcode_for_dynamic_shared_memory` (nto_shmem.c:35-42): out-of-memory
for `EFBIG`/`ENOMEM`, otherwise whatever `errcode_for_file_access` says. -/
def errcode_for_dynamic_shared_memory (e : SysErr) : ErrCode :=
  if e = SysErr.EFBIG ∨ e = SysErr.ENOMEM then ErrCode.outOfMemory
  else errcode_for_file_access e

/-- Outcome of a fatal path: an `ereport` carrying its severity and the
errcode supplied at the call site (`none` when the call site supplies no
`errcode(...)` item, as at nto_shmem.c:129-130 and 143-144), or a failed
`Assert`. -/
inductive PGError
  | ereport (lvl : PGLevel) (code : Option ErrCode)
  | assertFail
deriving DecidableEq, Repr

/-- The suffix of the segment name built by the loop of `GenerateSHMName`
(nto_shmem.c:54-59): scan `DataDir`; a `/` resets the per-segment counter;
any other character is appended while the counter is below 2, and the
counter is incremented for every non-separator character (the C code's
`chars++ < 2`). -/
def shmSuffix : List Char → Nat → List Char
  | [], _ => []
  | c :: rest, chars =>
    if c = '/' then shmSuffix rest 0
    else if chars < 2 then c :: shmSuffix rest (chars + 1)
    else shmSuffix rest (chars + 1)

/-- `GenerateSHMName` (nto_shmem.c:44-60): the fixed stem followed by the
per-segment two-character suffix of the data directory.  The C code writes
this into a caller-supplied buffer with `strcpy`/`strncat` and never
truncates, so the model returns the full unbounded string. -/
def GenerateSHMName (dataDir : List Char) : List Char :=
  ("/PostgreSQL.").toList ++ shmSuffix dataDir 0

/-- Spec-side definition, following the spec's words for NameDeriver: the
list of path segments between directory separators, in path order (a
leading separator contributes an empty first segment). -/
def specSegments : List Char → List (List Char)
  | [] => [[]]
  | c :: rest =>
    match specSegments rest with
    | [] => [[]]
    | s :: ss => if c = '/' then [] :: s :: ss else (c :: s) :: ss

/-- `shm_open` with `O_CREAT | O_EXCL` (nto_shmem.c:80) against a modelled
namespace: fails exactly when the name already exists, otherwise creates
it. -/
def shm_open_excl (name : List Char) (ns : List (List Char)) :
    Option (List (List Char)) :=
  if name ∈ ns then none else some (name :: ns)

/-- `shm_unlink` against the modelled namespace: removes the name. -/
def shm_unlink_from (name : List Char) (ns : List (List Char)) :
    List (List Char) :=
  ns.erase name

/-- `PGSharedMemoryIsInUse` (nto_shmem.c:73-88): derive the name from the
data directory, try an exclusive create; on failure report `true`, on
success close and unlink the just-created object and report `false`.  The
two id arguments are accepted and never read, exactly as in the C code.
Returns the answer together with the namespace after the probe. -/
def PGSharedMemoryIsInUse (id1 id2 : Nat) (dataDir : List Char)
    (ns : List (List Char)) : Bool × List (List Char) :=
  let name := GenerateSHMName dataDir
  match shm_open_excl name ns with
  | none => (true, ns)
  | some ns2 => (false, shm_unlink_from name ns2)

/-- The `huge_pages` GUC values (`HUGE_PAGES_OFF`/`TRY`/`ON`). -/
inductive HugePages
  | hpOff
  | hpTry
  | hpOn
deriving DecidableEq, Repr

/-- One OS operation performed by the modelled functions, recorded in
order so that claims about "no OS resource creation" and about operation
ordering are statable. -/
inductive OSEvent
  | shmOpen (name : List Char)
  | fstatSeg
  | ftruncateSeg (size : Nat)
  | mmapSeg (size : Nat)
  | closeFd
  | munmapSeg
  | shmUnlink (name : List Char)
  | registerExitHook
  | freeName
deriving DecidableEq, Repr

/-- Oracle for the fallible OS calls made by `PGSharedMemoryCreate`:
`none` means the call succeeds, `some e` that it fails with errno `e`.
`existingSize` is `st.st_size` reported by a successful `fstat`; `pid` and
`mmapAddr` are the values returned by `getpid` and a successful `mmap`. -/
structure OSEnv where
  shmOpenErr : Option SysErr
  fstatErr : Option SysErr
  existingSize : Nat
  ftruncErr : Option SysErr
  mmapErr : Option SysErr
  pid : Nat
  mmapAddr : Nat
deriving DecidableEq, Repr

/-- The process-wide mapping record: `UsedShmemSegAddr` (as an optional
address) and `UsedShmemSegSize` (nto_shmem.c:30-31). -/
structure SegHandle where
  addr : Option Nat
  size : Nat
deriving DecidableEq, Repr

/-- The standard segment header written at creation.  The struct layout
itself lives outside this excerpt; only the fields this file writes are
modelled. -/
structure PGShmemHeader where
  magic : Nat
  creatorPID : Nat
  totalsize : Nat
  freeoffset : Nat
  dsm_control : Nat
deriving DecidableEq, Repr

/-- `MAXALIGN` (from the portability headers outside this excerpt): round
up to the platform's maximum alignment, modelled with the usual
`MAXIMUM_ALIGNOF = 8`. -/
def MAXALIGN (n : Nat) : Nat :=
  ((n + 7) / 8) * 8

/-- The header magic sentinel `PGShmemMagic` (declared outside this
excerpt; its concrete value is irrelevant to the claims). -/
def PGShmemMagic : Nat :=
  679834894

/-- `PGSharedMemoryCreate` (nto_shmem.c:104-172).  Arguments beyond the C
signature: `hdrSize` is `sizeof(PGShmemHeader)`, `hp` the `huge_pages`
GUC, `hugePagesSupported` is false exactly when `EXEC_BACKEND` is defined
or `MAP_HUGETLB` is not (the compiled-in `#if` of lines 113-118),
`dataDir` is `DataDir`, `env` the OS oracle and `h0` the process-wide
handle on entry.  Returns the result (header or fatal error), the
process-wide handle on exit, and the ordered OS operations performed.
Steps, in source order: the huge-pages configuration check; the
`Assert(size > MAXALIGN(sizeof(PGShmemHeader)))`; `GenerateSHMName`;
clearing `UsedShmemSegAddr`; `shm_open` (failure reported FATAL with no
errcode, line 129-130); `fstat` (failure FATAL with
`errcode_for_dynamic_shared_memory`); `ftruncate` only when the size
differs (failure FATAL with no errcode); `mmap` (failure FATAL with
`errcode_for_dynamic_shared_memory`); header initialization; recording the
handle; `close`; registering the `PGSharedMemoryDelete` exit hook. -/
def PGSharedMemoryCreate (hdrSize size : Nat) (_makePrivate : Bool)
    (_port : Nat) (hp : HugePages) (hugePagesSupported : Bool)
    (dataDir : List Char) (env : OSEnv) (h0 : SegHandle) :
    Except PGError PGShmemHeader × SegHandle × List OSEvent :=
  if hugePagesSupported = false ∧ hp = HugePages.hpOn then
    (.error (.ereport .ERROR (some .featureNotSupported)), h0, [])
  else if size ≤ MAXALIGN hdrSize then
    (.error .assertFail, h0, [])
  else
    let name := GenerateSHMName dataDir
    let h1 : SegHandle := { h0 with addr := none }
    match env.shmOpenErr with
    | some _ =>
      (.error (.ereport .FATAL none), h1, [.shmOpen name])
    | none =>
      match env.fstatErr with
      | some e =>
        (.error (.ereport .FATAL (some (errcode_for_dynamic_shared_memory e))),
          h1, [.shmOpen name, .fstatSeg, .closeFd])
      | none =>
        let resizeEvents : List OSEvent :=
          if size = env.existingSize then [] else [.ftruncateSeg size]
        let resizeErr : Option SysErr :=
          if size = env.existingSize then none else env.ftruncErr
        match resizeErr with
        | some _ =>
          (.error (.ereport .FATAL none), h1,
            [.shmOpen name, .fstatSeg] ++ resizeEvents ++ [.closeFd])
        | none =>
          match env.mmapErr with
          | some e =>
            (.error
              (.ereport .FATAL (some (errcode_for_dynamic_shared_memory e))),
              h1,
              [.shmOpen name, .fstatSeg] ++ resizeEvents
                ++ [.mmapSeg size, .closeFd])
          | none =>
            let hdr : PGShmemHeader :=
              { magic := PGShmemMagic
                creatorPID := env.pid
                totalsize := size
                freeoffset := MAXALIGN hdrSize
                dsm_control := 0 }
            (.ok hdr, { addr := some env.mmapAddr, size := size },
              [.shmOpen name, .fstatSeg] ++ resizeEvents
                ++ [.mmapSeg size, .closeFd, .registerExitHook])

/-- `PGSharedMemoryDetach` (nto_shmem.c:183-199): regenerate the name (it
is only used in the failure message, which is not modelled); if
`UsedShmemSegAddr` is non-NULL, `munmap` it — failure is FATAL with
`errcode_for_dynamic_shared_memory`; then clear `UsedShmemSegAddr` and
`UsedShmemSegSize`.  `munmapErr` is the oracle for the `munmap` call. -/
def PGSharedMemoryDetach (_dataDir : List Char) (munmapErr : Option SysErr)
    (h : SegHandle) : Except PGError SegHandle × List OSEvent :=
  match h.addr with
  | none => (.ok { addr := none, size := 0 }, [])
  | some _ =>
    match munmapErr with
    | some e =>
      (.error (.ereport .FATAL (some (errcode_for_dynamic_shared_memory e))),
        [.munmapSeg])
    | none => (.ok { addr := none, size := 0 }, [.munmapSeg])

/-- `PGSharedMemoryDelete` (nto_shmem.c:201-213), the exit hook: first
`PGSharedMemoryDetach` (whose fatal failure aborts the process before any
unlink); then `shm_unlink` of the name passed as the Datum — failure is
FATAL with `errcode_for_dynamic_shared_memory`; finally `free` the private
name copy.  `unlinkErr` is the oracle for the `shm_unlink` call; the
`free` is recorded as the `freeName` event. -/
def PGSharedMemoryDelete (_status : Nat) (name : List Char)
    (dataDir : List Char) (munmapErr unlinkErr : Option SysErr)
    (h : SegHandle) : Except PGError SegHandle × List OSEvent :=
  match PGSharedMemoryDetach dataDir munmapErr h with
  | (.error e, tr) => (.error e, tr)
  | (.ok h2, tr) =>
    match unlinkErr with
    | some e =>
      (.error (.ereport .FATAL (some (errcode_for_dynamic_shared_memory e))),
        tr ++ [.shmUnlink name])
    | none => (.ok h2, tr ++ [.shmUnlink name, .freeName])

lemma specSegments_ne_nil (l : List Char) : specSegments l ≠ [] := by
  cases l with
  | nil => simp [specSegments]
  | cons c rest =>
    simp only [specSegments]
    rcases h : specSegments rest with _ | ⟨s, ss⟩
    · simp
    · split
      · simp
      · split <;> simp

lemma shmSuffix_eq_take (l : List Char) :
    ∀ chars, shmSuffix l chars =
      ((specSegments l).headD []).take (2 - chars)
        ++ (((specSegments l).drop 1).map (fun s => s.take 2)).flatten := by
  induction l with
  | nil => intro chars; simp [shmSuffix, specSegments]
  | cons c rest ih =>
    intro chars
    obtain ⟨s, ss, hseg⟩ :=
      List.exists_cons_of_ne_nil (specSegments_ne_nil rest)
    by_cases hc : c = '/'
    · simp only [shmSuffix, specSegments, hseg, hc, if_pos rfl]
      rw [ih 0]
      simp [hseg]
    · simp only [shmSuffix, specSegments, hseg, if_neg hc]
      by_cases hlt : chars < 2
      · rw [if_pos hlt, ih (chars + 1)]
        simp only [hseg, List.headD_cons, List.drop_one, List.tail_cons]
        have h2 : 2 - chars = (2 - (chars + 1)) + 1 := by omega
        rw [h2, List.take_succ_cons]
        simp
      · rw [if_neg hlt, ih (chars + 1)]
        simp only [hseg, List.headD_cons, List.drop_one, List.tail_cons]
        have h2 : 2 - chars = 0 := by omega
        have h3 : 2 - (chars + 1) = 0 := by omega
        rw [h2, h3]
        simp

lemma shmSuffix_zero (l : List Char) :
    shmSuffix l 0 = ((specSegments l).map (fun s => s.take 2)).flatten := by
  obtain ⟨s, ss, hseg⟩ := List.exists_cons_of_ne_nil (specSegments_ne_nil l)
  rw [shmSuffix_eq_take l 0, hseg]
  simp

lemma slash_not_mem_shmSuffix (l : List Char) :
    ∀ chars, '/' ∉ shmSuffix l chars := by
  induction l with
  | nil => intro chars; simp [shmSuffix]
  | cons c rest ih =>
    intro chars
    by_cases hc : c = '/'
    · simpa [shmSuffix, hc] using ih 0
    · simp only [shmSuffix, if_neg hc]
      by_cases hlt : chars < 2
      · rw [if_pos hlt]
        intro hmem
        rcases List.mem_cons.mp hmem with h | h
        · exact hc h.symm
        · exact ih (chars + 1) h
      · rw [if_neg hlt]; exact ih (chars + 1)

/-- C6: for every data-directory path, `GenerateSHMName` yields the fixed
stem followed by, for each path segment between directory separators, at
most that segment's first two characters, concatenated in path order; and
no separator character occurs after the stem (the stem is 12 characters
long, so dropping 12 characters leaves exactly the suffix). -/
theorem generateSHMName_takes_two_per_segment (dd : List Char) :
    GenerateSHMName dd
      = ("/PostgreSQL.").toList
          ++ ((specSegments dd).map (fun s => s.take 2)).flatten
    ∧ ((GenerateSHMName dd).drop 12).count '/' = 0 := by
  constructor
  · rw [GenerateSHMName, shmSuffix_zero]
  · rw [GenerateSHMName]
    have hlen : (("/PostgreSQL.").toList).length = 12 := by decide
    rw [show (12 : Nat) = (("/PostgreSQL.").toList).length from hlen.symm,
      List.drop_left]
    exact List.count_eq_zero.mpr (slash_not_mem_shmSuffix dd 0)

/-- The data-directory path `/ab` repeated 32 times, a concrete input on
which the derived name overflows the callers' 64-byte buffers. -/
def overflowDir : List Char :=
  (List.replicate 32 ['/', 'a', 'b']).flatten

/-- C2: the derived name is NOT truncated to any bound.  On the concrete
path `overflowDir` it is 76 characters long — more than the 12-character
stem plus 63 usable characters the claim allows, and more than fits in the
64-byte `name` buffers of `PGSharedMemoryIsInUse`, `PGSharedMemoryCreate`
and `PGSharedMemoryDetach`. -/
theorem generateSHMName_overflows :
    (GenerateSHMName overflowDir).length = 76
    ∧ 12 + 63 < (GenerateSHMName overflowDir).length
    ∧ 64 < (GenerateSHMName overflowDir).length := by
  refine ⟨by decide, ?_, ?_⟩ <;> decide

/-- C1: the liveness probe attempts an exclusive create of the derived
name; when the name exists (segment created and not yet destroyed) the
create fails and the probe answers `true` touching nothing, and when the
name does not exist (segment destroyed) the create succeeds, the probe
unlinks the just-created object and answers `false`, leaving the namespace
as it found it. -/
theorem isInUse_probe (id1 id2 : Nat) (dd : List Char)
    (ns : List (List Char)) :
    (GenerateSHMName dd ∈ ns →
      PGSharedMemoryIsInUse id1 id2 dd ns = (true, ns))
    ∧ (GenerateSHMName dd ∉ ns →
      PGSharedMemoryIsInUse id1 id2 dd ns = (false, ns)) := by
  constructor
  · intro hmem
    simp [PGSharedMemoryIsInUse, shm_open_excl, hmem]
  · intro hmem
    simp [PGSharedMemoryIsInUse, shm_open_excl, hmem, shm_unlink_from]

/-- Closed witness for `isInUse_probe`: concrete probes on the path
`/data`, once with the derived name present in the namespace and once
with an empty namespace. -/
theorem isInUse_probe_witness :
    PGSharedMemoryIsInUse 7 9 (['/', 'd', 'a', 't', 'a'])
        [GenerateSHMName ['/', 'd', 'a', 't', 'a']]
      = (true, [GenerateSHMName ['/', 'd', 'a', 't', 'a']])
    ∧ PGSharedMemoryIsInUse 7 9 (['/', 'd', 'a', 't', 'a']) []
      = (false, []) :=
  ⟨(isInUse_probe 7 9 ['/', 'd', 'a', 't', 'a']
      [GenerateSHMName ['/', 'd', 'a', 't', 'a']]).1 (by decide),
    (isInUse_probe 7 9 ['/', 'd', 'a', 't', 'a'] []).2 (by decide)⟩

/-- C10: the result of `PGSharedMemoryIsInUse` does not depend on its two
id arguments — under the same data directory and namespace state, any two
argument pairs give the same answer and the same final namespace. -/
theorem isInUse_ignores_ids (id1 id2 id1' id2' : Nat) (dd : List Char)
    (ns : List (List Char)) :
    PGSharedMemoryIsInUse id1 id2 dd ns
      = PGSharedMemoryIsInUse id1' id2' dd ns := rfl

/-- C7: `PGSharedMemoryDetach` is idempotent — whenever a call succeeds it
leaves the handle empty, and an immediately following call (with any
munmap oracle) observes the empty handle, performs no unmap, does not
fail, and leaves the handle unchanged. -/
theorem detach_idempotent (dd dd2 : List Char) (e1 e2 : Option SysErr)
    (h h' : SegHandle) (tr : List OSEvent)
    (hok : PGSharedMemoryDetach dd e1 h = (.ok h', tr)) :
    h'.addr = none
    ∧ PGSharedMemoryDetach dd2 e2 h' = (.ok h', []) := by
  have haddr : h' = { addr := none, size := 0 } := by
    rcases h with ⟨_ | a, sz⟩
    · simp [PGSharedMemoryDetach] at hok
      exact hok.1.symm
    · rcases e1 with _ | e
      · simp [PGSharedMemoryDetach] at hok
        exact hok.1.symm
      · simp [PGSharedMemoryDetach] at hok
  subst haddr
  exact ⟨rfl, rfl⟩


/-- Closed witness for `detach_idempotent`: a concrete successful detach
of an active mapping, followed by a second detach whose munmap oracle is
even set to fail — it still succeeds doing nothing. -/
theorem detach_idempotent_witness :
    (SegHandle.mk none 0).addr = none
    ∧ PGSharedMemoryDetach ['/', 'x'] (some SysErr.EACCES)
        (SegHandle.mk none 0)
      = (.ok (SegHandle.mk none 0), []) :=
  detach_idempotent ['/', 'x'] ['/', 'x'] none (some SysErr.EACCES)
    (SegHandle.mk (some 100) 50) (SegHandle.mk none 0) [OSEvent.munmapSeg]
    rfl

/-- C9: on a build/platform combination that cannot provide huge pages
(`hugePagesSupported = false`), a call with huge pages explicitly
requested (`HUGE_PAGES_ON`) fails with the feature-not-supported
configuration error, the handle untouched, and performs no OS operation at
all — in particular no shared-memory object is opened, created, resized,
or mapped. -/
theorem create_huge_pages_unsupported (hdrSize size : Nat)
    (mp : Bool) (port : Nat) (dd : List Char) (env : OSEnv)
    (h0 : SegHandle) :
    PGSharedMemoryCreate hdrSize size mp port HugePages.hpOn false dd env h0
      = (.error (.ereport .ERROR (some .featureNotSupported)), h0, []) := by
  simp [PGSharedMemoryCreate]

/-- C4: whenever `size` is not strictly greater than the aligned header
size (and the huge-pages configuration check does not fire first), the
call fails on the `Assert` precondition and performs no OS operation — the
empty operation list shows no shared-memory object was opened or
created. -/
theorem create_requires_room_for_header (hdrSize size : Nat)
    (mp : Bool) (port : Nat) (hp : HugePages) (hps : Bool)
    (dd : List Char) (env : OSEnv) (h0 : SegHandle)
    (hsz : size ≤ MAXALIGN hdrSize)
    (hhp : hps = true ∨ hp ≠ HugePages.hpOn) :
    PGSharedMemoryCreate hdrSize size mp port hp hps dd env h0
      = (.error .assertFail, h0, []) := by
  have hcond : ¬(hps = false ∧ hp = HugePages.hpOn) := by
    rcases hhp with h | h <;> simp [h]
  simp [PGSharedMemoryCreate, hcond, hsz, Nat.not_lt.mpr hsz]

/-- Closed witness for `create_requires_room_for_header`: with a
40-byte header, requesting exactly `MAXALIGN 40 = 40` bytes trips the
assertion with an empty operation list. -/
theorem create_requires_room_for_header_witness :
    PGSharedMemoryCreate 40 40 false 5432 HugePages.hpOff true
        ['/', 'd'] (OSEnv.mk none none 0 none none 1 4096)
        (SegHandle.mk none 0)
      = (.error .assertFail, SegHandle.mk none 0, []) :=
  create_requires_room_for_header 40 40 false 5432 HugePages.hpOff true
    ['/', 'd'] (OSEnv.mk none none 0 none none 1 4096)
    (SegHandle.mk none 0) (by decide) (Or.inl rfl)

/-- C5: whenever `PGSharedMemoryCreate` returns a header (for a positive
`sizeof(PGShmemHeader)`), that header has the expected magic sentinel,
`totalsize` equal to the requested size, `freeoffset` equal to the aligned
header size — hence 8-aligned, strictly positive and strictly below the
requested size — and a zeroed `dsm_control` slot. -/
theorem create_header_initialized (hdrSize size : Nat) (mp : Bool)
    (port : Nat) (hp : HugePages) (hps : Bool) (dd : List Char)
    (env : OSEnv) (h0 : SegHandle) (hdr : PGShmemHeader) (hnd : SegHandle)
    (tr : List OSEvent)
    (hpos : 0 < hdrSize)
    (hok : PGSharedMemoryCreate hdrSize size mp port hp hps dd env h0
      = (.ok hdr, hnd, tr)) :
    hdr.magic = PGShmemMagic ∧ hdr.totalsize = size
    ∧ hdr.freeoffset = MAXALIGN hdrSize
    ∧ hdr.freeoffset % 8 = 0 ∧ 0 < hdr.freeoffset ∧ hdr.freeoffset < size
    ∧ hdr.dsm_control = 0 := by
  have halign : MAXALIGN hdrSize % 8 = 0 ∧ 0 < MAXALIGN hdrSize := by
    unfold MAXALIGN; omega
  simp only [PGSharedMemoryCreate] at hok
  split at hok
  · simp at hok
  · split at hok
    · simp at hok
    · rename_i hroom
      split at hok
      · simp at hok
      · split at hok
        · simp at hok
        · split at hok
          · simp at hok
          · split at hok
            · simp at hok
            · obtain ⟨hhdr, -, -⟩ := by simpa using hok
              subst hhdr
              refine ⟨rfl, rfl, rfl, halign.1, halign.2, ?_, rfl⟩
              simpa using Nat.lt_of_not_le hroom

/-- Closed witness for `create_header_initialized`: a concrete fully
successful creation of a 1024-byte segment over a 40-byte header. -/
theorem create_header_initialized_witness :
    (PGShmemHeader.mk PGShmemMagic 12345 1024 40 0).magic = PGShmemMagic
    ∧ (PGShmemHeader.mk PGShmemMagic 12345 1024 40 0).totalsize = 1024
    ∧ (PGShmemHeader.mk PGShmemMagic 12345 1024 40 0).freeoffset
        = MAXALIGN 40
    ∧ (PGShmemHeader.mk PGShmemMagic 12345 1024 40 0).freeoffset % 8 = 0
    ∧ 0 < (PGShmemHeader.mk PGShmemMagic 12345 1024 40 0).freeoffset
    ∧ (PGShmemHeader.mk PGShmemMagic 12345 1024 40 0).freeoffset < 1024
    ∧ (PGShmemHeader.mk PGShmemMagic 12345 1024 40 0).dsm_control = 0 :=
  create_header_initialized 40 1024 false 5432 HugePages.hpOff true
    ['/', 'd'] (OSEnv.mk none none 1024 none none 12345 4096)
    (SegHandle.mk none 0) (PGShmemHeader.mk PGShmemMagic 12345 1024 40 0)
    (SegHandle.mk (some 4096) 1024)
    [.shmOpen (GenerateSHMName ['/', 'd']), .fstatSeg, .mmapSeg 1024,
      .closeFd, .registerExitHook]
    (by decide) rfl

/-- An OS oracle on which `shm_open` fails with `ENOMEM` — a resource
exhaustion errno — and every other call would succeed. -/
def openFailEnv : OSEnv :=
  OSEnv.mk (some SysErr.ENOMEM) none 0 none none 1 4096

/-- C3 counterexample: when the open-or-create of the shared-memory object
fails with the resource-exhaustion errno `ENOMEM`, the reported fatal
error carries NO errcode classification — nto_shmem.c:129-130 passes only
`errmsg` to `ereport` — so it is not classified as out-of-memory (nor as a
file-access error), contradicting the claim. -/
theorem create_open_failure_unclassified_cex :
    (PGSharedMemoryCreate 40 1024 false 5432 HugePages.hpOff true
        ['/', 'd'] openFailEnv (SegHandle.mk none 0)).1
      = .error (.ereport .FATAL none)
    ∧ ¬ (PGSharedMemoryCreate 40 1024 false 5432 HugePages.hpOff true
        ['/', 'd'] openFailEnv (SegHandle.mk none 0)).1
      = .error (.ereport .FATAL
          (some (errcode_for_dynamic_shared_memory SysErr.ENOMEM))) := by
  constructor
  · rfl
  · intro h
    have : (Except.error (PGError.ereport .FATAL none)
        : Except PGError PGShmemHeader)
      = .error (.ereport .FATAL
          (some (errcode_for_dynamic_shared_memory SysErr.ENOMEM))) := h
    simp [errcode_for_dynamic_shared_memory] at this

/-- C3 as amended: when `PGSharedMemoryCreate` fails to open-or-create the
named object, the failure is fatal, the operation list shows only the
attempted open, and the reported error carries no errcode classification
at all — in particular it is not the out-of-memory/file-access
classification of `errcode_for_dynamic_shared_memory`, which this function
applies only at its stat and map failure sites. -/
theorem create_open_failure_fatal_unclassified (hdrSize size : Nat)
    (mp : Bool) (port : Nat) (hp : HugePages) (hps : Bool) (dd : List Char)
    (env : OSEnv) (h0 : SegHandle) (e : SysErr)
    (hhp : hps = true ∨ hp ≠ HugePages.hpOn)
    (hroom : MAXALIGN hdrSize < size)
    (hopen : env.shmOpenErr = some e) :
    PGSharedMemoryCreate hdrSize size mp port hp hps dd env h0
      = (.error (.ereport .FATAL none), { h0 with addr := none },
          [.shmOpen (GenerateSHMName dd)]) := by
  have hcond : ¬(hps = false ∧ hp = HugePages.hpOn) := by
    rcases hhp with h | h <;> simp [h]
  simp [PGSharedMemoryCreate, hcond, Nat.not_le.mpr hroom, hopen]

/-- Closed witness for `create_open_failure_fatal_unclassified` at the
concrete environment `openFailEnv`. -/
theorem create_open_failure_fatal_unclassified_witness :
    PGSharedMemoryCreate 40 1024 false 5432 HugePages.hpOff true
        ['/', 'd'] openFailEnv (SegHandle.mk none 0)
      = (.error (.ereport .FATAL none), SegHandle.mk none 0,
          [.shmOpen (GenerateSHMName ['/', 'd'])]) :=
  create_open_failure_fatal_unclassified 40 1024 false 5432
    HugePages.hpOff true ['/', 'd'] openFailEnv (SegHandle.mk none 0)
    SysErr.ENOMEM (Or.inl rfl) (by decide) rfl

/-- C8: the exit hook `PGSharedMemoryDelete` always performs the detach
steps first: its operation list extends the detach operation list, the
unlink appears only when the detach succeeded, a failing unlink makes the
whole call fail fatally (with `errcode_for_dynamic_shared_memory` — never
silently swallowed), and the private name-string copy is freed exactly on a
successful unlink after a successful detach, strictly after the unlink in
the operation order. -/
theorem delete_detaches_then_unlinks (status : Nat) (nm dd : List Char)
    (me ue : Option SysErr) (h : SegHandle) :
    ((PGSharedMemoryDelete status nm dd me ue h).2.take
        (PGSharedMemoryDetach dd me h).2.length
      = (PGSharedMemoryDetach dd me h).2)
    ∧ (OSEvent.shmUnlink nm ∈ (PGSharedMemoryDelete status nm dd me ue h).2
        → (PGSharedMemoryDetach dd me h).1.isOk = true)
    ∧ (∀ h2, (PGSharedMemoryDetach dd me h).1 = .ok h2 → ∀ e, ue = some e →
        (PGSharedMemoryDelete status nm dd me ue h)
          = (.error (.ereport .FATAL
              (some (errcode_for_dynamic_shared_memory e))),
             (PGSharedMemoryDetach dd me h).2 ++ [.shmUnlink nm]))
    ∧ (OSEvent.freeName ∈ (PGSharedMemoryDelete status nm dd me ue h).2
        → ue = none ∧ (PGSharedMemoryDelete status nm dd me ue h).2
            = (PGSharedMemoryDetach dd me h).2
              ++ [.shmUnlink nm, .freeName]) := by
  rcases hdet : PGSharedMemoryDetach dd me h with ⟨r, tr⟩
  have htr : tr = [] ∨ tr = [OSEvent.munmapSeg] := by
    have h2 := congrArg Prod.snd hdet
    rcases h with ⟨_ | a, sz⟩
    · left
      simpa [PGSharedMemoryDetach] using h2.symm
    · rcases me with _ | e
      · right
        simpa [PGSharedMemoryDetach] using h2.symm
      · right
        simpa [PGSharedMemoryDetach] using h2.symm
  have hnu : OSEvent.shmUnlink nm ∉ tr ∧ OSEvent.freeName ∉ tr := by
    rcases htr with rfl | rfl <;> simp
  rcases r with er | h2
  · refine ⟨?_, ?_, ?_, ?_⟩
    · simp [PGSharedMemoryDelete, hdet]
    · intro hmem
      simp [PGSharedMemoryDelete, hdet] at hmem
      exact absurd hmem hnu.1
    · intro h2 hcontra
      simp at hcontra
    · intro hmem
      simp [PGSharedMemoryDelete, hdet] at hmem
      exact absurd hmem hnu.2
  · rcases ue with _ | e
    · refine ⟨?_, ?_, ?_, ?_⟩
      · simp [PGSharedMemoryDelete, hdet]
      · intro _; rfl
      · intro _ _ e hcontra; simp at hcontra
      · intro _
        simp [PGSharedMemoryDelete, hdet]
    · refine ⟨?_, ?_, ?_, ?_⟩
      · simp [PGSharedMemoryDelete, hdet]
      · intro _; rfl
      · intro h3 hh3 e' he'
        obtain rfl : e = e' := by simpa using he'
        simp [PGSharedMemoryDelete, hdet]
      · intro hmem
        simp [PGSharedMemoryDelete, hdet] at hmem
        exact absurd hmem hnu.2

/-- Closed witness for `delete_detaches_then_unlinks`: a concrete exit-hook
run in which the detach succeeds and the unlink fails with `EACCES` — the
hook fails fatally with the file-access classification, having unlinked
only after the detach, and never frees the name. -/
theorem delete_detaches_then_unlinks_witness :
    PGSharedMemoryDelete 0 ['n'] ['/', 'd'] none (some SysErr.EACCES)
        (SegHandle.mk (some 4096) 1024)
      = (.error (.ereport .FATAL
          (some (errcode_for_dynamic_shared_memory SysErr.EACCES))),
         (PGSharedMemoryDetach ['/', 'd'] none
            (SegHandle.mk (some 4096) 1024)).2 ++ [.shmUnlink ['n']]) :=
  (delete_detaches_then_unlinks 0 ['n'] ['/', 'd'] none
      (some SysErr.EACCES) (SegHandle.mk (some 4096) 1024)).2.2.1
    (SegHandle.mk none 0) rfl SysErr.EACCES rfl
